import Mathlib

/-!
Verification of the Lottie Bezier path model
(`submodules/TelegramUI/Components/LottieCpp/PublicHeaders/LottieCpp/BezierPath.h`).

The repository file is a header: it declares `BezierPathContents` (elements,
optional closed flag, lazily cached length), its mutation operations, length
measurement, the arc-length trim algorithm, JSON (de)serialization, and the
batch bounding-box entry points.  The member-function bodies live outside the
repository snapshot, so each operation below is modelled from the written
specification of the component and the claims are settled against these
models.  Numeric values (C++ `double`) are modelled as real numbers.
-/

noncomputable section

open Classical

namespace Lottie

/-- Model of `Vector2D`: a 2-D point with real coordinates. -/
@[ext]
structure Vector2D where
  x : ℝ
  y : ℝ

/-- Modelled from the spec: Euclidean distance between two points, used as the
exact arc length of a straight segment. -/
def Vector2D.distanceTo (a b : Vector2D) : ℝ :=
  Real.sqrt ((b.x - a.x) ^ 2 + (b.y - a.y) ^ 2)

/-- Model of `CurveVertex`: a point plus absolute in/out tangent handles. -/
structure CurveVertex where
  point : Vector2D
  inTangent : Vector2D
  outTangent : Vector2D

/-- Model of `PathElement`: one element of the path, holding the vertex that
ends the segment coming from the previous element. -/
structure PathElement where
  vertex : CurveVertex

/-- Model of `BezierPathContents`: the ordered element sequence, the optional
closed flag, and the lazily cached length (`none` means dirty). -/
structure BezierPathContents where
  elements : List PathElement
  closed : Option Bool
  _length : Option ℝ

/-- Model of `BezierTrimPathPosition`: a start/end pair in the path's length
coordinate space. -/
structure BezierTrimPathPosition where
  start : ℝ
  end_ : ℝ

namespace BezierPathContents

/-- Modelled from the spec: the default (empty) constructor - no elements,
unspecified closed flag, dirty length cache. -/
def empty : BezierPathContents := ⟨[], none, none⟩

/-- Modelled from the spec: construction from a single start vertex; length
left dirty. -/
def fromStartPoint (v : CurveVertex) : BezierPathContents := ⟨[⟨v⟩], none, none⟩

/-- Modelled from the spec: `moveToStartPoint` resets the path to a single
starting vertex, discarding prior elements, and invalidates the length. -/
def moveToStartPoint (p : BezierPathContents) (v : CurveVertex) : BezierPathContents :=
  { elements := [⟨v⟩], closed := p.closed, _length := none }

/-- Modelled from the spec: `addVertex` appends a new element holding the
vertex and invalidates the length. -/
def addVertex (p : BezierPathContents) (v : CurveVertex) : BezierPathContents :=
  { elements := p.elements ++ [⟨v⟩], closed := p.closed, _length := none }

/-- Modelled from the spec: `reserveCapacity` is a pure performance hint with
no observable effect. -/
def reserveCapacity (p : BezierPathContents) (_capacity : ℕ) : BezierPathContents := p

/-- Degenerate padding element used by `setElementCount` when growing. -/
def defaultElement : PathElement := ⟨⟨⟨0, 0⟩, ⟨0, 0⟩, ⟨0, 0⟩⟩⟩

/-- Modelled from the spec: `setElementCount` truncates or pads the element
sequence to exactly `count` elements and invalidates the length. -/
def setElementCount (p : BezierPathContents) (count : ℕ) : BezierPathContents :=
  { elements := p.elements.take count ++
      List.replicate (count - p.elements.length) defaultElement,
    closed := p.closed, _length := none }

/-- Modelled from the spec: `invalidateLength` forces the cache to dirty. -/
def invalidateLength (p : BezierPathContents) : BezierPathContents :=
  { elements := p.elements, closed := p.closed, _length := none }

/-- Replaces the out-tangent of the final vertex of an element list. -/
def updateLastOutTangent : List PathElement → Vector2D → List PathElement
  | [], _ => []
  | [e], o => [⟨⟨e.vertex.point, e.vertex.inTangent, o⟩⟩]
  | e :: e2 :: rest, o => e :: updateLastOutTangent (e2 :: rest) o

/-- Modelled from the spec: `addCurve` is the convenience form of `addVertex`
with explicit tangents - the previous vertex receives the outgoing tangent and
the appended vertex carries the incoming tangent; invalidates the length. -/
def addCurve (p : BezierPathContents) (toPoint outTangent inTangent : Vector2D) :
    BezierPathContents :=
  { elements := updateLastOutTangent p.elements outTangent ++
      [⟨⟨toPoint, inTangent, toPoint⟩⟩],
    closed := p.closed, _length := none }

/-- Modelled from the spec: `addLine` is the convenience form of `addVertex`
with trivial tangents (tangent handles equal to the point itself, encoding a
straight segment); invalidates the length. -/
def addLine (p : BezierPathContents) (toPoint : Vector2D) : BezierPathContents :=
  p.addVertex ⟨toPoint, toPoint, toPoint⟩

/-- Modelled from the spec: `close` marks the path closed and invalidates the
length. -/
def close (p : BezierPathContents) : BezierPathContents :=
  { elements := p.elements, closed := some true, _length := none }

/-- Modelled from the spec: `addElement` is the low-level append bypassing
vertex derivation; invalidates the length. -/
def addElement (p : BezierPathContents) (pathElement : PathElement) : BezierPathContents :=
  { elements := p.elements ++ [pathElement], closed := p.closed, _length := none }

/-- Modelled from the spec: `updateVertex` replaces the vertex of the element
at `atIndex` (silent no-op when the index is out of bounds, which never
corrupts internal state); when `remeasure` is true the length is invalidated
immediately, otherwise the cache is left as-is. -/
def updateVertex (p : BezierPathContents) (v : CurveVertex) (atIndex : Int)
    (remeasure : Bool) : BezierPathContents :=
  { elements :=
      if 0 ≤ atIndex ∧ atIndex.toNat < p.elements.length then
        p.elements.set atIndex.toNat ⟨v⟩
      else p.elements,
    closed := p.closed,
    _length := if remeasure then none else p._length }

/-- Holds when the segment between two consecutive vertices is straight: the
tangent handles coincide with the segment endpoints. -/
def segmentIsStraight (a b : CurveVertex) : Prop :=
  a.outTangent = a.point ∧ b.inTangent = b.point

/-- Linear interpolation between two points. -/
def lerpV (a b : Vector2D) (t : ℝ) : Vector2D :=
  ⟨a.x + (b.x - a.x) * t, a.y + (b.y - a.y) * t⟩

/-- De Casteljau evaluation of the cubic Bezier with control points
`p0 p1 p2 p3` at parameter `t`. -/
def bezierInterp (p0 p1 p2 p3 : Vector2D) (t : ℝ) : Vector2D :=
  lerpV (lerpV (lerpV p0 p1 t) (lerpV p1 p2 t) t)
    (lerpV (lerpV p1 p2 t) (lerpV p2 p3 t) t) t

/-- Total length of a polyline through the given points. -/
def polylineLength : List Vector2D → ℝ
  | [] => 0
  | [_] => 0
  | a :: b :: rest => a.distanceTo b + polylineLength (b :: rest)

/-- Number of subdivisions of the fixed polyline approximation used for cubic
segment lengths. -/
def cubicSubdivisions : ℕ := 16

/-- Sample points of a cubic Bezier at the uniform parameters `k / n`. -/
def cubicSamples (p0 p1 p2 p3 : Vector2D) (n : ℕ) : List Vector2D :=
  (List.range (n + 1)).map (fun k => bezierInterp p0 p1 p2 p3 ((k : ℝ) / (n : ℝ)))

/-- Modelled from the spec: arc length of one segment - exact Euclidean
distance for straight segments, deterministic fixed-subdivision polyline
approximation for cubic segments. -/
def segmentLength (a b : CurveVertex) : ℝ :=
  if segmentIsStraight a b then a.point.distanceTo b.point
  else polylineLength (cubicSamples a.point a.outTangent b.inTangent b.point cubicSubdivisions)

/-- Sum of the segment lengths from a previous vertex through a list of
elements. -/
def segmentsLength : CurveVertex → List PathElement → ℝ
  | _, [] => 0
  | prev, e :: rest => segmentLength prev e.vertex + segmentsLength e.vertex rest

/-- Modelled from the spec: the total measured arc length - zero for a path
with zero or one element, otherwise the sum of per-segment lengths, plus the
implicit closing segment when the path is closed. -/
def measuredLength (p : BezierPathContents) : ℝ :=
  match p.elements with
  | [] => 0
  | [_] => 0
  | e0 :: e1 :: rest =>
    segmentsLength e0.vertex (e1 :: rest) +
      (if p.closed = some true then
        segmentLength (List.getLastD rest e1).vertex e0.vertex
      else 0)

/-- Value returned by `length()`: the cached value when present, otherwise the
measured length. -/
def lengthValue (p : BezierPathContents) : ℝ :=
  p._length.getD (measuredLength p)

/-- Modelled from the spec: `length()` returns the cached value if present,
otherwise computes, caches and returns the measured length.  The pair carries
the returned value and the updated state. -/
def length (p : BezierPathContents) : ℝ × BezierPathContents :=
  (lengthValue p, { p with _length := some (lengthValue p) })

/-- The polar form (blossom) of the cubic Bezier with control points
`p0 p1 p2 p3`, evaluated at `u v w`; De Casteljau-style subdivision of a cubic
over a parameter subinterval is expressed through it. -/
def blossom (p0 p1 p2 p3 : Vector2D) (u v w : ℝ) : Vector2D :=
  lerpV (lerpV (lerpV p0 p1 u) (lerpV p1 p2 u) v)
    (lerpV (lerpV p1 p2 u) (lerpV p2 p3 u) v) w

/-- Modelled from the spec: geometric split of the segment between vertices
`a` and `b` to the parameter window `[t0, t1]` - linear interpolation for
straight segments, De Casteljau-style subdivision for cubic segments.  The
result is the start and end vertex of the clipped segment. -/
def splitSegment (a b : CurveVertex) (t0 t1 : ℝ) : CurveVertex × CurveVertex :=
  if segmentIsStraight a b then
    (⟨lerpV a.point b.point t0, lerpV a.point b.point t0, lerpV a.point b.point t0⟩,
     ⟨lerpV a.point b.point t1, lerpV a.point b.point t1, lerpV a.point b.point t1⟩)
  else
    (⟨blossom a.point a.outTangent b.inTangent b.point t0 t0 t0,
      blossom a.point a.outTangent b.inTangent b.point t0 t0 t0,
      blossom a.point a.outTangent b.inTangent b.point t0 t0 t1⟩,
     ⟨blossom a.point a.outTangent b.inTangent b.point t1 t1 t1,
      blossom a.point a.outTangent b.inTangent b.point t0 t1 t1,
      blossom a.point a.outTangent b.inTangent b.point t1 t1 t1⟩)

/-- Walk of the element sequence that resolves the length window `[s, w]` to
the overlapped segments: each overlapped segment is clipped to the window
(whole segments kept unsplit via fractions `0` and `1`, straddling segments
split at their local arc-length fraction) and reported as a start/end vertex
pair.  `c` is the accumulated length in front of the current segment. -/
def collectPairs : CurveVertex → List PathElement → ℝ → ℝ → ℝ →
    List (CurveVertex × CurveVertex)
  | _, [], _, _, _ => []
  | prev, e :: rest, c, s, w =>
    if c + segmentLength prev e.vertex ≤ s then
      collectPairs e.vertex rest (c + segmentLength prev e.vertex) s w
    else if w ≤ c then []
    else
      splitSegment prev e.vertex
          (if s ≤ c then 0 else (s - c) / segmentLength prev e.vertex)
          (if c + segmentLength prev e.vertex ≤ w then 1 else
            (w - c) / segmentLength prev e.vertex)
        :: collectPairs e.vertex rest (c + segmentLength prev e.vertex) s w

/-- Joins the tail of a run of clipped segment pairs into a vertex sequence,
merging each interior junction (point and incoming tangent from the left
piece, outgoing tangent from the right piece). -/
def joinRun : CurveVertex → List (CurveVertex × CurveVertex) → List CurveVertex
  | b, [] => [b]
  | b, (a2, b2) :: rest => ⟨b.point, b.inTangent, a2.outTangent⟩ :: joinRun b2 rest

/-- Joins a contiguous run of clipped segment pairs into the vertex sequence
of the output sub-path. -/
def joinPairs : List (CurveVertex × CurveVertex) → List CurveVertex
  | [] => []
  | (a, b) :: rest => a :: joinRun b rest

/-- Modelled from the spec: extraction of the sub-path covering the arc
`[startLen, endLen]` of the source - whole elements strictly between the two
cuts concatenated with the split partial elements at the ends.  The output is
a fresh instance, never closed, with a dirty length cache. -/
def extractSubpath (p : BezierPathContents) (startLen endLen : ℝ) : BezierPathContents :=
  match p.elements with
  | [] => ⟨[], some false, none⟩
  | e0 :: rest =>
    ⟨(joinPairs (collectPairs e0.vertex rest 0 startLen endLen)).map (fun v => ⟨v⟩),
      some false, none⟩

/-- Modelled from the spec: `trimPathAtLengths` builds one independent output
sub-path per requested length window. -/
def trimPathAtLengths (p : BezierPathContents)
    (positions : List BezierTrimPathPosition) : List BezierPathContents :=
  positions.map (fun pos => extractSubpath p pos.start pos.end_)

/-- Representative of `x` modulo `L` in `[0, L)` (for `L > 0`), used to loop
out-of-range length arguments over the path. -/
def posMod (x L : ℝ) : ℝ := x - L * ⌊x / L⌋

/-- Dispatch of the reduced window ends: a reduced end of `0` stands for the
far end `L` of the cyclic length space, a non-wrapping window keeps one arc,
and a wrapping window keeps the two complement arcs. -/
def trimSplit (p : BezierPathContents) (s e0 : ℝ) : List BezierPathContents :=
  if s ≤ (if e0 = 0 then lengthValue p else e0) then
    trimPathAtLengths p [⟨s, if e0 = 0 then lengthValue p else e0⟩]
  else
    trimPathAtLengths p [⟨0, if e0 = 0 then lengthValue p else e0⟩, ⟨s, lengthValue p⟩]

/-- Modelled from the spec: `trim(fromLength, toLength, offsetLength)`.
An empty window returns no sub-paths; a zero total length returns an empty
result; a window at least as long as the path returns the original content
unsplit with the closed flag preserved; otherwise both window ends are
shifted by the offset and reduced modulo the total length into `[0, L)`
(a reduced end of `0` standing for the far end `L`), and the kept region is
the single arc `[s, e]` when `s ≤ e` or the two wraparound arcs `[0, e]` and
`[s, L]` when `s > e`. -/
def trim (p : BezierPathContents) (fromLength toLength offsetLength : ℝ) :
    List BezierPathContents :=
  if fromLength = toLength then []
  else if lengthValue p = 0 then []
  else if lengthValue p ≤ toLength - fromLength then
    [⟨p.elements, p.closed, p._length⟩]
  else
    trimSplit p (posMod (fromLength + offsetLength) (lengthValue p))
      (posMod (toLength + offsetLength) (lengthValue p))

end BezierPathContents

/-- Keys of the serialized keyed structure; exact textual field names are a
collaborator contract, so keys are modelled symbolically. -/
inductive JsonKey where
  | elements
  | closed
  | point
  | inTangent
  | outTangent
deriving DecidableEq

/-- Model of `lottiejson11::Json` restricted to the shapes the path core
produces and consumes. -/
inductive Json where
  | num : ℝ → Json
  | bool : Bool → Json
  | null : Json
  | arr : List Json → Json
  | obj : List (JsonKey × Json) → Json

/-- Model of the `ParseError` raised on structurally invalid serialized
data. -/
inductive ParseError where
  | invalid

/-- First value bound to a key in a keyed field list. -/
def findField : JsonKey → List (JsonKey × Json) → Option Json
  | _, [] => none
  | k, (k2, v) :: rest => if k = k2 then some v else findField k rest

/-- Serialization of a point as a two-number array. -/
def vecToJson (v : Vector2D) : Json := .arr [.num v.x, .num v.y]

/-- Parse of a point from a two-number array; anything else is malformed. -/
def vecFromJson : Json → Except ParseError Vector2D
  | .arr [.num x, .num y] => .ok ⟨x, y⟩
  | _ => .error .invalid

/-- Serialization of a curve vertex as a keyed structure. -/
def vertexToJson (v : CurveVertex) : Json :=
  .obj [(.point, vecToJson v.point), (.inTangent, vecToJson v.inTangent),
    (.outTangent, vecToJson v.outTangent)]

/-- Parse of a curve vertex; fails when a required field is missing or has
the wrong shape. -/
def vertexFromJson : Json → Except ParseError CurveVertex
  | .obj fields =>
    match findField .point fields, findField .inTangent fields,
        findField .outTangent fields with
    | some pj, some ij, some oj => do
      let p ← vecFromJson pj
      let i ← vecFromJson ij
      let o ← vecFromJson oj
      pure ⟨p, i, o⟩
    | _, _, _ => .error .invalid
  | _ => .error .invalid

/-- Parse of the element array in traversal order. -/
def elementsFromJson : List Json → Except ParseError (List PathElement)
  | [] => .ok []
  | j :: rest => do
    let v ← vertexFromJson j
    let vs ← elementsFromJson rest
    pure (⟨v⟩ :: vs)

namespace BezierPathContents

/-- Modelled from the spec: `toJson` serializes the element list in traversal
order together with the closed flag when it is explicit. -/
def toJson (p : BezierPathContents) : Json :=
  .obj ((JsonKey.elements, .arr (p.elements.map (fun e => vertexToJson e.vertex))) ::
    (match p.closed with
     | some b => [(JsonKey.closed, .bool b)]
     | none => []))

/-- Modelled from the spec: the JSON constructor rejects structurally invalid
data with `ParseError` and otherwise rebuilds `elements` and `closed`
verbatim, leaving the length dirty. -/
def fromJson (j : Json) : Except ParseError BezierPathContents :=
  match j with
  | .obj fields =>
    match findField .elements fields with
    | some (.arr items) =>
      match elementsFromJson items with
      | .ok els =>
        match findField .closed fields with
        | some (.bool b) => .ok ⟨els, some b, none⟩
        | none => .ok ⟨els, none, none⟩
        | some _ => .error .invalid
      | .error e => .error e
    | _ => .error .invalid
  | _ => .error .invalid

end BezierPathContents

/-- Model of the `BezierPath` handle: a value wrapper around referenced
contents. -/
structure BezierPath where
  contents : BezierPathContents

/-- Model of `BezierPathsBoundingBoxContext`: the reusable scratch buffers of
the parallel bounding-box entry point.  The buffers are a performance detail
and carry no semantic content. -/
structure BezierPathsBoundingBoxContext where
  pointsX : List ℝ
  pointsY : List ℝ
  pointsSize : Int

/-- Model of `CGRect`. -/
structure CGRect where
  x : ℝ
  y : ℝ
  width : ℝ
  height : ℝ

/-- Running bounds of a point set as `(minX, minY, maxX, maxY)`. -/
abbrev Bounds := ℝ × ℝ × ℝ × ℝ

/-- Bounds of a single point. -/
def pointBounds (v : Vector2D) : Bounds := (v.x, v.y, v.x, v.y)

/-- Merge of two optional bounds by componentwise min/max. -/
def mergeBounds : Option Bounds → Option Bounds → Option Bounds
  | none, b => b
  | some a, none => some a
  | some (a1, a2, a3, a4), some (b1, b2, b3, b4) =>
    some (min a1 b1, min a2 b2, max a3 b3, max a4 b4)

/-- Bounds of a list of points; `none` for the empty list. -/
def boundsOfPoints (points : List Vector2D) : Option Bounds :=
  points.foldr (fun v acc => mergeBounds (some (pointBounds v)) acc) none

/-- Conversion of optional bounds to a rectangle; the empty input yields the
defined zero rectangle. -/
def rectOfBounds : Option Bounds → CGRect
  | none => ⟨0, 0, 0, 0⟩
  | some (a, b, c, d) => ⟨a, b, c - a, d - b⟩

/-- Modelled from the spec: the rendered point set of one path - every
vertex point together with its tangent handles, which bound each cubic
segment. -/
def pathPoints (p : BezierPath) : List Vector2D :=
  p.contents.elements.foldr
    (fun e acc => e.vertex.point :: e.vertex.inTangent :: e.vertex.outTangent :: acc) []

/-- Concatenation of the rendered point sets of a batch of paths. -/
def allPathPoints : List BezierPath → List Vector2D
  | [] => []
  | p :: rest => pathPoints p ++ allPathPoints rest

/-- Modelled from the spec: `bezierPathsBoundingBox` flattens every rendered
point of every path into global min/max bounds and returns the axis-aligned
rectangle, the zero rectangle for an empty input. -/
def bezierPathsBoundingBox (paths : List BezierPath) : CGRect :=
  rectOfBounds (boundsOfPoints (allPathPoints paths))

/-- Modelled from the spec: `bezierPathsBoundingBoxParallel` computes the
per-path bounds independently (the concurrent worker phase) and combines them
in a single-threaded reduction; the context buffers are reused scratch memory
with no effect on the result. -/
def bezierPathsBoundingBoxParallel (_context : BezierPathsBoundingBoxContext)
    (paths : List BezierPath) : CGRect :=
  rectOfBounds ((paths.map (fun p => boundsOfPoints (pathPoints p))).foldr mergeBounds none)

/-- Heap of reference-counted `BezierPathContents` instances; a handle is an
index into the heap.  Object identity is the index, so aliasing and
independence of instances are expressible. -/
abbrev Store := List BezierPathContents

/-- Contents referenced by a handle, when the handle is live. -/
def Store.read (st : Store) (i : ℕ) : Option BezierPathContents :=
  List.get? st i

/-- In-place mutation through a handle: the referenced contents are replaced
by `g` applied to them; dead handles mutate nothing. -/
def Store.mutate (st : Store) (i : ℕ) (g : BezierPathContents → BezierPathContents) : Store :=
  match List.get? st i with
  | none => st
  | some p => st.set i (g p)

/-- Modelled from the spec: `trim` called through a handle allocates every
output sub-path as a fresh independent instance at the end of the heap and
returns the list of new handles. -/
def Store.trimAlloc (st : Store) (i : ℕ) (fromLength toLength offsetLength : ℝ) :
    Store × List ℕ :=
  match List.get? st i with
  | none => (st, [])
  | some p =>
    (st ++ p.trim fromLength toLength offsetLength,
     (List.range (p.trim fromLength toLength offsetLength).length).map
       (fun k => st.length + k))

/-- Vertex of an axis-aligned square corner with trivial tangent handles
(straight-segment encoding). -/
def squareV (px py : ℝ) : CurveVertex := ⟨⟨px, py⟩, ⟨px, py⟩, ⟨px, py⟩⟩

/-- Closed unit square path: four unit-length straight sides traversed from
the origin, with the start vertex repeated so that the implicit closing
segment is degenerate; total length 4, length cache dirty. -/
def squarePath : BezierPathContents :=
  ⟨[⟨squareV 0 0⟩, ⟨squareV 1 0⟩, ⟨squareV 1 1⟩, ⟨squareV 0 1⟩, ⟨squareV 0 0⟩],
    some true, none⟩

/-- First output arc of the wraparound trim of the square: the side from
`(0,0)` to `(1,0)`, covering the length window `[0,1]`. -/
def squareArcA : BezierPathContents :=
  ⟨[⟨squareV 0 0⟩, ⟨squareV 1 0⟩], some false, none⟩

/-- Second output arc of the wraparound trim of the square: the side from
`(0,1)` to `(0,0)`, covering the length window `[3,4]`. -/
def squareArcB : BezierPathContents :=
  ⟨[⟨squareV 0 1⟩, ⟨squareV 0 0⟩], some false, none⟩

lemma segmentLength_squareV (a b c d : ℝ) :
    BezierPathContents.segmentLength (squareV a b) (squareV c d) =
      Real.sqrt ((c - a) ^ 2 + (d - b) ^ 2) := by
  rw [BezierPathContents.segmentLength, if_pos ⟨rfl, rfl⟩]
  rfl

lemma square_lengthValue : BezierPathContents.lengthValue squarePath = 4 := by
  show BezierPathContents.measuredLength squarePath = 4
  simp only [BezierPathContents.measuredLength, squarePath,
    BezierPathContents.segmentsLength, List.getLastD, segmentLength_squareV]
  norm_num [segmentLength_squareV, Real.sqrt_one, Real.sqrt_zero]

lemma posMod_eq_self (a L : ℝ) (h0 : 0 ≤ a) (hL : a < L) :
    BezierPathContents.posMod a L = a := by
  have hLpos : 0 < L := lt_of_le_of_lt h0 hL
  have hfloor : ⌊a / L⌋ = 0 := by
    rw [Int.floor_eq_zero_iff]
    exact ⟨div_nonneg h0 hLpos.le, (div_lt_one hLpos).mpr hL⟩
  rw [BezierPathContents.posMod, hfloor]
  simp

lemma posMod_add_right (a L : ℝ) (hL : L ≠ 0) :
    BezierPathContents.posMod (a + L) L = BezierPathContents.posMod a L := by
  rw [BezierPathContents.posMod, BezierPathContents.posMod, add_div, div_self hL,
    Int.floor_add_one]
  push_cast
  ring

lemma square_trim_full :
    squarePath.trim 0 4 0 =
      [⟨squarePath.elements, squarePath.closed, squarePath._length⟩] := by
  rw [BezierPathContents.trim, square_lengthValue]
  norm_num

/-- C3: every structural mutation (moveToStartPoint, addVertex, addLine,
addCurve, close, addElement, setElementCount, updateVertex with
remeasure=true) leaves the length cache dirty, so the next length query
measures the new geometry; updateVertex with remeasure=false leaves the cache
untouched. -/
theorem cache_invalidation_on_mutation (p : BezierPathContents) (v : CurveVertex)
    (pt o i : Vector2D) (e : PathElement) (n : ℕ) (idx : Int) :
    (p.moveToStartPoint v)._length = none ∧
    (p.addVertex v)._length = none ∧
    (p.addLine pt)._length = none ∧
    (p.addCurve pt o i)._length = none ∧
    p.close._length = none ∧
    (p.addElement e)._length = none ∧
    (p.setElementCount n)._length = none ∧
    (p.updateVertex v idx true)._length = none ∧
    BezierPathContents.lengthValue (p.updateVertex v idx true) =
      BezierPathContents.measuredLength (p.updateVertex v idx true) ∧
    (p.updateVertex v idx false)._length = p._length :=
  ⟨rfl, rfl, rfl, rfl, rfl, rfl, rfl, rfl, rfl, rfl⟩

/-- C10: length() is observationally pure - a second call with no intervening
mutation returns the same value, and a call changes neither the element
sequence nor the closed flag. -/
theorem length_observationally_pure (p : BezierPathContents) :
    (BezierPathContents.length (BezierPathContents.length p).2).1 =
      (BezierPathContents.length p).1 ∧
    (BezierPathContents.length p).2.elements = p.elements ∧
    (BezierPathContents.length p).2.closed = p.closed := by
  refine ⟨?_, rfl, rfl⟩
  simp [BezierPathContents.length, BezierPathContents.lengthValue]

/-- C7: trim with an empty window (fromLength equal to toLength) follows one
fixed convention on every path and offset - it returns the empty result
set. -/
theorem trim_empty_window_empty (p : BezierPathContents)
    (fromLength offsetLength : ℝ) :
    p.trim fromLength fromLength offsetLength = [] := by
  simp [BezierPathContents.trim]

/-- C2 (amended): for every path with positive total length and every window
at least as long as the path, trim returns exactly one sub-path equal in
element content to the source, with the source's closed flag preserved on the
output (not forced to false). -/
theorem trim_covers_all (p : BezierPathContents) (fromLength toLength offsetLength : ℝ)
    (h1 : 0 < BezierPathContents.lengthValue p)
    (h2 : BezierPathContents.lengthValue p ≤ toLength - fromLength) :
    p.trim fromLength toLength offsetLength =
      [⟨p.elements, p.closed, p._length⟩] := by
  have hne : ¬fromLength = toLength := by
    intro h
    rw [h, sub_self] at h2
    exact absurd h2 (not_le.mpr h1)
  rw [BezierPathContents.trim, if_neg hne, if_neg h1.ne', if_pos h2]

/-- Witness for C2 (amended): the fully covering window `[0,4]` on the closed
unit square returns the square's content as a single sub-path. -/
theorem trim_covers_all_witness :
    squarePath.trim 0 4 0 =
      [⟨squarePath.elements, squarePath.closed, squarePath._length⟩] :=
  trim_covers_all squarePath 0 4 0 (by rw [square_lengthValue]; norm_num)
    (by rw [square_lengthValue]; norm_num)

/-- Counterexample for C2 as stated: at the concrete input `squarePath` with
window `[0,4]` (total length 4, so the window covers the whole path and the
claim's hypotheses hold), the single output sub-path carries the preserved
closed flag `some true`, not the claimed forced `closed = false`. -/
theorem trim_covers_all_closed_flag_counterexample :
    squarePath.trim 0 4 0 = [⟨squarePath.elements, some true, none⟩] ∧
    0 < BezierPathContents.lengthValue squarePath ∧
    BezierPathContents.lengthValue squarePath ≤ 4 - 0 ∧
    (some true : Option Bool) ≠ some false :=
  ⟨square_trim_full, by rw [square_lengthValue]; norm_num,
    by rw [square_lengthValue]; norm_num, by simp⟩

/-- C5: trim never signals an error - on a path of total length 0 it returns
the empty result, and out-of-range fromLength/toLength/offsetLength values
are accepted and handled by modulo normalization: shifting the offset or both
window ends by the total length leaves the result unchanged. -/
theorem trim_error_policy (p : BezierPathContents)
    (fromLength toLength offsetLength : ℝ) :
    (BezierPathContents.lengthValue p = 0 →
      p.trim fromLength toLength offsetLength = []) ∧
    (BezierPathContents.lengthValue p ≠ 0 →
      p.trim fromLength toLength (offsetLength + BezierPathContents.lengthValue p) =
        p.trim fromLength toLength offsetLength ∧
      p.trim (fromLength + BezierPathContents.lengthValue p)
          (toLength + BezierPathContents.lengthValue p) offsetLength =
        p.trim fromLength toLength offsetLength) := by
  constructor
  · intro h
    simp [BezierPathContents.trim, h]
  · intro hL
    constructor
    · rw [BezierPathContents.trim, BezierPathContents.trim]
      have e1 : fromLength + (offsetLength + BezierPathContents.lengthValue p) =
          (fromLength + offsetLength) + BezierPathContents.lengthValue p := by ring
      have e2 : toLength + (offsetLength + BezierPathContents.lengthValue p) =
          (toLength + offsetLength) + BezierPathContents.lengthValue p := by ring
      rw [e1, e2, posMod_add_right _ _ hL, posMod_add_right _ _ hL]
    · by_cases hft : fromLength = toLength
      · simp [BezierPathContents.trim, hft]
      · have hft2 : ¬fromLength + BezierPathContents.lengthValue p =
            toLength + BezierPathContents.lengthValue p := by
          intro hc
          exact hft (by linarith)
        rw [BezierPathContents.trim, BezierPathContents.trim, if_neg hft, if_neg hft2]
        have e3 : toLength + BezierPathContents.lengthValue p -
            (fromLength + BezierPathContents.lengthValue p) = toLength - fromLength := by
          ring
        have e4 : fromLength + BezierPathContents.lengthValue p + offsetLength =
            (fromLength + offsetLength) + BezierPathContents.lengthValue p := by ring
        have e5 : toLength + BezierPathContents.lengthValue p + offsetLength =
            (toLength + offsetLength) + BezierPathContents.lengthValue p := by ring
        rw [e3, e4, e5, posMod_add_right _ _ hL, posMod_add_right _ _ hL]

/-- Witness for C5: the empty path has length 0 and trims to the empty
result; on the square, shifting the offset by the total length does not
change the trim result. -/
theorem trim_error_policy_witness :
    BezierPathContents.empty.trim 1 2 0 = [] ∧
    squarePath.trim 0 1 (0 + BezierPathContents.lengthValue squarePath) =
      squarePath.trim 0 1 0 :=
  ⟨(trim_error_policy BezierPathContents.empty 1 2 0).1 rfl,
   ((trim_error_policy squarePath 0 1 0).2
     (by rw [square_lengthValue]; norm_num)).1⟩

lemma vecFromJson_vecToJson (v : Vector2D) : vecFromJson (vecToJson v) = .ok v := rfl

lemma vertexFromJson_vertexToJson (v : CurveVertex) :
    vertexFromJson (vertexToJson v) = .ok v := rfl

lemma elementsFromJson_map (es : List PathElement) :
    elementsFromJson (es.map (fun e => vertexToJson e.vertex)) = .ok es := by
  induction es with
  | nil => rfl
  | cons e rest ih =>
    rw [List.map_cons, elementsFromJson, vertexFromJson_vertexToJson, ih]
    rfl

/-- C4: serialization round-trips - parsing a serialized path succeeds and
re-serializing the parse result reproduces the serialized form exactly, the
numbers carried through without any additional rounding. -/
theorem toJson_roundtrip (p : BezierPathContents) :
    ∃ q, BezierPathContents.fromJson (BezierPathContents.toJson p) = Except.ok q ∧
      BezierPathContents.toJson q = BezierPathContents.toJson p := by
  refine ⟨⟨p.elements, p.closed, none⟩, ?_, rfl⟩
  cases hc : p.closed with
  | none =>
    simp [BezierPathContents.fromJson, BezierPathContents.toJson, hc, findField,
      elementsFromJson_map]
  | some b =>
    simp [BezierPathContents.fromJson, BezierPathContents.toJson, hc, findField,
      elementsFromJson_map]

/-- Pairwise straightness of every explicit segment of an element list
following a previous vertex. -/
def StraightSegments : CurveVertex → List PathElement → Prop
  | _, [] => True
  | prev, e :: rest =>
    BezierPathContents.segmentIsStraight prev e.vertex ∧ StraightSegments e.vertex rest

/-- Paths consisting only of straight segments, the implicit closing segment
included when the path is closed. -/
def StraightPath (p : BezierPathContents) : Prop :=
  match p.elements with
  | [] => True
  | [_] => True
  | e0 :: e1 :: rest =>
    StraightSegments e0.vertex (e1 :: rest) ∧
      (p.closed = some true →
        BezierPathContents.segmentIsStraight (List.getLastD rest e1).vertex e0.vertex)

/-- Endpoint sequence of a path. -/
def pointsOf (p : BezierPathContents) : List Vector2D :=
  p.elements.map (fun e => e.vertex.point)

/-- Statement-side length of a straight path: the exact sum of the Euclidean
distances between consecutive endpoints, the closing distance included when
the path is closed, and zero for zero or one element. -/
def specStraightLength (p : BezierPathContents) : ℝ :=
  match pointsOf p with
  | [] => 0
  | [_] => 0
  | q0 :: q1 :: qs =>
    BezierPathContents.polylineLength (q0 :: q1 :: qs) +
      (if p.closed = some true then (List.getLastD qs q1).distanceTo q0 else 0)

lemma segmentsLength_of_straight (es : List PathElement) :
    ∀ prev : CurveVertex, StraightSegments prev es →
      BezierPathContents.segmentsLength prev es =
        BezierPathContents.polylineLength
          (prev.point :: es.map (fun e => e.vertex.point)) := by
  induction es with
  | nil =>
    intro prev _
    simp [BezierPathContents.segmentsLength, BezierPathContents.polylineLength]
  | cons e rest ih =>
    intro prev h
    rw [List.map_cons, BezierPathContents.segmentsLength,
      BezierPathContents.segmentLength, if_pos h.1, ih e.vertex h.2,
      BezierPathContents.polylineLength]

lemma getLastD_map_vertex (l : List PathElement) :
    ∀ d : PathElement,
      List.getLastD (l.map (fun e => e.vertex.point)) d.vertex.point =
        (List.getLastD l d).vertex.point := by
  induction l with
  | nil => intro d; rfl
  | cons a l ih =>
    intro d
    rw [List.map_cons, List.getLastD_cons, List.getLastD_cons, ih]

/-- C6: on a path made only of straight segments whose length cache is dirty,
length() returns exactly the sum of the Euclidean distances between
consecutive endpoints (no approximation error), and a path with zero or one
element has length 0. -/
theorem length_straight_additivity (p : BezierPathContents)
    (h1 : p._length = none) (h2 : StraightPath p) :
    (BezierPathContents.length p).1 = specStraightLength p ∧
    (p.elements.length ≤ 1 → (BezierPathContents.length p).1 = 0) := by
  have hval : (BezierPathContents.length p).1 = BezierPathContents.measuredLength p := by
    simp [BezierPathContents.length, BezierPathContents.lengthValue, h1]
  constructor
  · rw [hval]
    rcases hes : p.elements with _ | ⟨e0, _ | ⟨e1, rest⟩⟩
    · simp [BezierPathContents.measuredLength, specStraightLength, pointsOf, hes]
    · simp [BezierPathContents.measuredLength, specStraightLength, pointsOf, hes]
    · simp only [StraightPath, hes] at h2
      simp only [BezierPathContents.measuredLength, specStraightLength, pointsOf, hes,
        List.map_cons]
      rw [segmentsLength_of_straight _ _ h2.1, List.map_cons]
      by_cases hcl : p.closed = some true
      · rw [if_pos hcl, if_pos hcl, BezierPathContents.segmentLength,
          if_pos (h2.2 hcl), getLastD_map_vertex]
      · rw [if_neg hcl, if_neg hcl]
  · intro hlen
    rw [hval]
    rcases hes : p.elements with _ | ⟨e0, _ | ⟨e1, rest⟩⟩
    · simp [BezierPathContents.measuredLength, hes]
    · simp [BezierPathContents.measuredLength, hes]
    · rw [hes] at hlen
      simp at hlen

/-- Witness for C6: on the closed unit square with a dirty cache, length()
equals the exact sum of the side distances. -/
theorem length_straight_additivity_witness :
    (BezierPathContents.length squarePath).1 = specStraightLength squarePath :=
  (length_straight_additivity squarePath rfl
    ⟨⟨⟨rfl, rfl⟩, ⟨rfl, rfl⟩, ⟨rfl, rfl⟩, ⟨rfl, rfl⟩, trivial⟩,
      fun _ => ⟨rfl, rfl⟩⟩).1

lemma mergeBounds_assoc (a b c : Option Bounds) :
    mergeBounds (mergeBounds a b) c = mergeBounds a (mergeBounds b c) := by
  rcases a with _ | ⟨a1, a2, a3, a4⟩ <;> rcases b with _ | ⟨b1, b2, b3, b4⟩ <;>
    rcases c with _ | ⟨c1, c2, c3, c4⟩ <;>
    simp [mergeBounds, min_assoc, max_assoc]

lemma boundsOfPoints_append (xs ys : List Vector2D) :
    boundsOfPoints (xs ++ ys) = mergeBounds (boundsOfPoints xs) (boundsOfPoints ys) := by
  induction xs with
  | nil => rfl
  | cons v xs ih =>
    rw [List.cons_append]
    show mergeBounds (some (pointBounds v)) (boundsOfPoints (xs ++ ys)) = _
    rw [ih, ← mergeBounds_assoc]
    rfl

lemma boundsOfPoints_allPathPoints (paths : List BezierPath) :
    boundsOfPoints (allPathPoints paths) =
      (paths.map (fun p => boundsOfPoints (pathPoints p))).foldr mergeBounds none := by
  induction paths with
  | nil => rfl
  | cons p rest ih =>
    rw [allPathPoints, boundsOfPoints_append, ih, List.map_cons, List.foldr_cons]

/-- C8: for every input list of paths, including the empty list, the
sequential and the parallel bounding-box entry points return the same
rectangle, whatever the context. -/
theorem boundingBox_parallel_equiv (context : BezierPathsBoundingBoxContext)
    (paths : List BezierPath) :
    bezierPathsBoundingBoxParallel context paths = bezierPathsBoundingBox paths := by
  rw [bezierPathsBoundingBoxParallel, bezierPathsBoundingBox,
    boundsOfPoints_allPathPoints]

lemma read_mutate_ne (st : Store) (j i : ℕ)
    (g : BezierPathContents → BezierPathContents) (hne : i ≠ j) :
    Store.read (Store.mutate st j g) i = Store.read st i := by
  rw [Store.mutate]
  cases hg : List.get? st j with
  | none => rfl
  | some p => exact List.get?_set_ne (g p) st (fun hc => hne hc.symm)

/-- C9: the sub-paths handed back by trim are independent instances - every
output handle is distinct from the source handle, mutating through an output
handle changes neither the source contents nor any sibling output's contents,
and mutating through the source handle leaves every output's contents
unchanged. -/
theorem trim_outputs_independent (st : Store) (i : ℕ)
    (fromLength toLength offsetLength : ℝ) (h : i < st.length) (j : ℕ)
    (hj : j ∈ (Store.trimAlloc st i fromLength toLength offsetLength).2)
    (g : BezierPathContents → BezierPathContents) :
    j ≠ i ∧
    Store.read
        (Store.mutate (Store.trimAlloc st i fromLength toLength offsetLength).1 j g) i =
      Store.read (Store.trimAlloc st i fromLength toLength offsetLength).1 i ∧
    (∀ j2 ∈ (Store.trimAlloc st i fromLength toLength offsetLength).2, j2 ≠ j →
      Store.read
          (Store.mutate (Store.trimAlloc st i fromLength toLength offsetLength).1 j g) j2 =
        Store.read (Store.trimAlloc st i fromLength toLength offsetLength).1 j2) ∧
    Store.read
        (Store.mutate (Store.trimAlloc st i fromLength toLength offsetLength).1 i g) j =
      Store.read (Store.trimAlloc st i fromLength toLength offsetLength).1 j := by
  have hij : st.length ≤ j := by
    rw [Store.trimAlloc] at hj
    cases hg : List.get? st i with
    | none => rw [hg] at hj; simp at hj
    | some p =>
      rw [hg] at hj
      simp only [List.mem_map, List.mem_range] at hj
      obtain ⟨k, _, hk⟩ := hj
      omega
  have hne : j ≠ i := by omega
  exact ⟨hne, read_mutate_ne _ j i g hne.symm,
    fun j2 _ hj2 => read_mutate_ne _ j j2 g hj2,
    read_mutate_ne _ i j g hne⟩

/-- Witness for C9: trimming the square held in a one-element heap allocates
the output at the fresh handle 1; closing the output does not change the
source at handle 0, and closing the source does not change the output at
handle 1. -/
theorem trim_outputs_independent_witness :
    (1 : ℕ) ≠ 0 ∧
    Store.read (Store.mutate (Store.trimAlloc [squarePath] 0 0 4 0).1 1
        (fun q => q.close)) 0 =
      Store.read (Store.trimAlloc [squarePath] 0 0 4 0).1 0 ∧
    Store.read (Store.mutate (Store.trimAlloc [squarePath] 0 0 4 0).1 0
        (fun q => q.close)) 1 =
      Store.read (Store.trimAlloc [squarePath] 0 0 4 0).1 1 := by
  have h := trim_outputs_independent [squarePath] 0 0 4 0 (by norm_num) 1
    (by simp [Store.trimAlloc, square_trim_full]) (fun q => q.close)
  exact ⟨h.1, h.2.1, h.2.2.2⟩

lemma lerpV_zero (p q : Vector2D) : BezierPathContents.lerpV p q 0 = p := by
  ext <;> simp [BezierPathContents.lerpV]

lemma lerpV_one (p q : Vector2D) : BezierPathContents.lerpV p q 1 = q := by
  ext <;> simp only [BezierPathContents.lerpV] <;> ring

lemma splitSegment_squareV_01 (a b c d : ℝ) :
    BezierPathContents.splitSegment (squareV a b) (squareV c d) 0 1 =
      (squareV a b, squareV c d) := by
  rw [BezierPathContents.splitSegment, if_pos ⟨rfl, rfl⟩, lerpV_zero, lerpV_one]
  rfl

lemma segLen01 : BezierPathContents.segmentLength (squareV 0 0) (squareV 1 0) = 1 := by
  rw [segmentLength_squareV]
  norm_num [Real.sqrt_one]

lemma segLen12 : BezierPathContents.segmentLength (squareV 1 0) (squareV 1 1) = 1 := by
  rw [segmentLength_squareV]
  norm_num [Real.sqrt_one]

lemma segLen23 : BezierPathContents.segmentLength (squareV 1 1) (squareV 0 1) = 1 := by
  rw [segmentLength_squareV]
  norm_num [Real.sqrt_one]

lemma segLen34 : BezierPathContents.segmentLength (squareV 0 1) (squareV 0 0) = 1 := by
  rw [segmentLength_squareV]
  norm_num [Real.sqrt_one]

lemma square_collect_01 :
    BezierPathContents.collectPairs (squareV 0 0)
      [⟨squareV 1 0⟩, ⟨squareV 1 1⟩, ⟨squareV 0 1⟩, ⟨squareV 0 0⟩] 0 0 1 =
      [(squareV 0 0, squareV 1 0)] := by
  simp only [BezierPathContents.collectPairs, segLen01, segLen12, segLen23, segLen34]
  norm_num [splitSegment_squareV_01]

lemma square_collect_34 :
    BezierPathContents.collectPairs (squareV 0 0)
      [⟨squareV 1 0⟩, ⟨squareV 1 1⟩, ⟨squareV 0 1⟩, ⟨squareV 0 0⟩] 0 3 4 =
      [(squareV 0 1, squareV 0 0)] := by
  simp only [BezierPathContents.collectPairs, segLen01, segLen12, segLen23, segLen34]
  norm_num [splitSegment_squareV_01]

lemma square_extract_01 :
    BezierPathContents.extractSubpath squarePath 0 1 = squareArcA := by
  simp only [BezierPathContents.extractSubpath, squarePath]
  rw [square_collect_01]
  rfl

lemma square_extract_34 :
    BezierPathContents.extractSubpath squarePath 3 4 = squareArcB := by
  simp only [BezierPathContents.extractSubpath, squarePath]
  rw [square_collect_34]
  rfl

lemma arcA_length : BezierPathContents.lengthValue squareArcA = 1 := by
  show BezierPathContents.measuredLength squareArcA = 1
  simp only [BezierPathContents.measuredLength, squareArcA,
    BezierPathContents.segmentsLength, List.getLastD, segLen01]
  norm_num

lemma arcB_length : BezierPathContents.lengthValue squareArcB = 1 := by
  show BezierPathContents.measuredLength squareArcB = 1
  simp only [BezierPathContents.measuredLength, squareArcB,
    BezierPathContents.segmentsLength, List.getLastD, segLen34]
  norm_num

/-- C1: trimming the closed unit square (perimeter 4) with fromLength 3,
toLength 1, offset 0 wraps around the path boundary and returns exactly two
sub-paths - the extraction of the arc [0,1] and the extraction of the arc
[3,4] of the source, concretely the sides from (0,0) to (1,0) and from (0,1)
to (0,0) - whose lengths sum to 2. -/
theorem trim_square_wraparound :
    squarePath.trim 3 1 0 =
      [BezierPathContents.extractSubpath squarePath 0 1,
       BezierPathContents.extractSubpath squarePath 3 4] ∧
    squarePath.trim 3 1 0 = [squareArcA, squareArcB] ∧
    BezierPathContents.lengthValue squareArcA +
      BezierPathContents.lengthValue squareArcB = 2 ∧
    BezierPathContents.lengthValue squarePath = 4 := by
  have h3 : BezierPathContents.posMod (3 + 0 : ℝ) 4 = 3 := by
    rw [show (3 + 0 : ℝ) = 3 by norm_num,
      posMod_eq_self 3 4 (by norm_num) (by norm_num)]
  have h1 : BezierPathContents.posMod (1 + 0 : ℝ) 4 = 1 := by
    rw [show (1 + 0 : ℝ) = 1 by norm_num,
      posMod_eq_self 1 4 (by norm_num) (by norm_num)]
  have hsplit : squarePath.trim 3 1 0 =
      [BezierPathContents.extractSubpath squarePath 0 1,
       BezierPathContents.extractSubpath squarePath 3 4] := by
    rw [BezierPathContents.trim, square_lengthValue,
      if_neg (by norm_num : ¬(3 : ℝ) = 1), if_neg (by norm_num : ¬(4 : ℝ) = 0),
      if_neg (by norm_num : ¬(4 : ℝ) ≤ 1 - 3), h3, h1,
      BezierPathContents.trimSplit, square_lengthValue]
    norm_num [BezierPathContents.trimPathAtLengths]
  refine ⟨hsplit, ?_, ?_, square_lengthValue⟩
  · rw [hsplit, square_extract_01, square_extract_34]
  · rw [arcA_length, arcB_length]
    norm_num

end Lottie
